import Mathlib

/-!
Verification development for the marketing-automation platform
(`utils.py`, `main.py`, `database.py`).  The Python source is shallowly
embedded: strings become `List Char`, SQLite rows become structures with
`Option` fields for nullable columns, and the two regular expressions of
`parse_command` are embedded as explicit backtracking matchers with
Python `re.search` semantics (leftmost starting position, greedy
quantifiers with backtracking).
-/

set_option maxRecDepth 4000

namespace KeFu

/-- Characters of a string literal; the embedding works over `List Char`. -/
def chars (s : String) : List Char := s.data

/-- CJK Unified Ideographs range `一-龥` used by the source regexes. -/
def isHanChar (c : Char) : Bool := 0x4e00 ≤ c.toNat && c.toNat ≤ 0x9fa5

/-- The character class `[一-龥\w]` of the source regexes.
Python's `\w` is approximated by ASCII alphanumerics and underscore plus
the explicit Han range; the program's inputs are CJK and ASCII text. -/
def isGatherChar (c : Char) : Bool := isHanChar c || c.isAlphanum || c == '_'

/-- `startsWith pat l` : `pat` is a prefix of `l`. -/
def startsWith : List Char → List Char → Bool
  | [], _ => true
  | _ :: _, [] => false
  | p :: ps, c :: cs => p == c && startsWith ps cs

/-- Python's `pat in l` substring test. -/
def containsSub (pat : List Char) : List Char → Bool
  | [] => startsWith pat []
  | c :: cs => startsWith pat (c :: cs) || containsSub pat cs

/-- Python `str.strip()` (leading and trailing whitespace removed). -/
def pyStrip (l : List Char) : List Char :=
  ((l.dropWhile Char.isWhitespace).reverse.dropWhile Char.isWhitespace).reverse

/-- Value of an ASCII digit run, as computed by Python `int()`. -/
def digitsToNat (ds : List Char) : Nat :=
  ds.foldl (fun a c => a * 10 + (c.toNat - 48)) 0

/-- Decimal rendering of a number, as interpolated by Python f-strings. -/
def natToChars (n : Nat) : List Char := Nat.toDigits 10 n

/-- Matcher for the regex fragment `客户信息(?P<number>\d+)条` as a prefix of
`l`; `\d` is approximated by ASCII digits.  Returns the parsed number. -/
def matchKehu (l : List Char) : Option Nat :=
  if startsWith (chars "客户信息") l then
    let rest := l.drop 4
    let ds := rest.takeWhile Char.isDigit
    if ds ≠ [] ∧ startsWith (chars "条") (rest.drop ds.length) then
      some (digitsToNat ds)
    else none
  else none

/-- Matcher for the regex fragment `行业?客户信息\d+条` as a prefix of `l`,
with the greedy optional `业` tried first (Python backtracking order). -/
def matchTail (l : List Char) : Option Nat :=
  match l with
  | [] => none
  | c :: rest =>
    if c = '行' then
      match rest with
      | c2 :: rest2 =>
        if c2 = '业' then
          match matchKehu rest2 with
          | some n => some n
          | none => matchKehu rest
        else matchKehu rest
      | [] => matchKehu rest
    else none

/-- Greedy backtracking for `(?P<industry>[一-龥\w]+)` followed by
`matchTail`: capture lengths are tried from `k` downward (Python's greedy
`+`), returning the captured industry and the parsed number. -/
def gatherSplit (l : List Char) : Nat → Option (List Char × Nat)
  | 0 => none
  | k + 1 =>
    match matchTail (l.drop (k + 1)) with
    | some n => some (l.take (k + 1), n)
    | none => gatherSplit l k

/-- Attempt the gather regex body right after a literal `搜集`. -/
def gatherAfter (l : List Char) : Option (List Char × Nat) :=
  gatherSplit l (l.takeWhile isGatherChar).length

/-- `re.search` for `搜集(?P<industry>[一-龥\w]+)行业?客户信息(?P<number>\d+)条`:
scan starting positions left to right. -/
def findGather : List Char → Option (List Char × Nat)
  | [] => none
  | c :: cs =>
    if c = '搜' ∧ startsWith (chars "集") cs then
      match gatherAfter (cs.drop 1) with
      | some r => some r
      | none => findGather cs
    else findGather cs

/-- Greedy backtracking for `(?P<target>[一-龥\w]+)客户`. -/
def addSplit (l : List Char) : Nat → Option (List Char)
  | 0 => none
  | k + 1 =>
    if startsWith (chars "客户") (l.drop (k + 1)) then some (l.take (k + 1))
    else addSplit l k

/-- Attempt the add-friends regex body right after a literal `添加`. -/
def addAfter (l : List Char) : Option (List Char) :=
  addSplit l (l.takeWhile isGatherChar).length

/-- `re.search` for `添加(?P<target>[一-龥\w]+)客户`. -/
def findAdd : List Char → Option (List Char)
  | [] => none
  | c :: cs =>
    if c = '添' ∧ startsWith (chars "加") cs then
      match addAfter (cs.drop 1) with
      | some r => some r
      | none => findAdd cs
    else findAdd cs

/-- The tagged action produced by `parse_command` (`utils.py`). -/
inductive Action where
  | gather (industry : List Char) (number : Nat)
  | addFriends (target : Option (List Char))
  | sendMessages (templateKeyword : Option (List Char))
  | generateReport
  | stop
  | pause
  | unknown
deriving DecidableEq, Repr

/-- Result dictionary of `parse_command`: an `action` plus the stripped
`raw` command text. -/
structure ParseResult where
  action : Action
  raw : List Char
deriving DecidableEq, Repr

/-- First of `["欢迎", "产品", "跟进", "活动"]` occurring in the command
(the keyword loop of the send-messages branch of `parse_command`). -/
def firstKeyword (command : List Char) : Option (List Char) :=
  [chars "欢迎", chars "产品", chars "跟进", chars "活动"].find?
    (fun kw => containsSub kw command)

/-- Embedding of `utils.parse_command`: the rules are tried in the source
order gather, add-friends, send-messages, report, stop, pause, unknown. -/
def parse_command (text : List Char) : ParseResult :=
  let command := pyStrip text
  match findGather command with
  | some (industry, number) => ⟨Action.gather industry number, command⟩
  | none =>
    match findAdd command with
    | some target => ⟨Action.addFriends (some target), command⟩
    | none =>
      if containsSub (chars "群发") command || containsSub (chars "发送") command then
        ⟨Action.sendMessages (firstKeyword command), command⟩
      else if containsSub (chars "简报") command || containsSub (chars "报告") command then
        ⟨Action.generateReport, command⟩
      else if containsSub (chars "停止") command || containsSub (chars "终止") command then
        ⟨Action.stop, command⟩
      else if containsSub (chars "暂停") command then
        ⟨Action.pause, command⟩
      else ⟨Action.unknown, command⟩

/-- Recursion kernel of `pyReplace`; the fuel strictly exceeds the number
of characters still to scan, so the zero-fuel branch is unreachable. -/
def pyReplaceAux (pat repl : List Char) : Nat → List Char → List Char
  | _, [] => []
  | 0, c :: cs => c :: cs
  | fuel + 1, c :: cs =>
    if pat ≠ [] ∧ startsWith pat (c :: cs) = true then
      repl ++ pyReplaceAux pat repl fuel (cs.drop (pat.length - 1))
    else c :: pyReplaceAux pat repl fuel cs

/-- Python `str.replace` for a nonempty pattern: scan left to right,
replace each non-overlapping occurrence, continue after the inserted
replacement (the replacement text is not rescanned).  An empty pattern
never occurs in the source; it is mapped to the identity here. -/
def pyReplace (s pat repl : List Char) : List Char :=
  pyReplaceAux pat repl s.length s

/-- The three customer fields consulted by `render_template_content`
(`customer.get("name")`, `"industry"`, `"company"`); `None` models both a
missing key and a SQL NULL. -/
structure RenderFields where
  name : Option (List Char)
  industry : Option (List Char)
  company : Option (List Char)
deriving DecidableEq, Repr

/-- Embedding of `utils.render_template_content`: one `str.replace` pass
per fixed token, in the dict insertion order 客户姓名, 行业, 公司; a falsy
field (`None`) is replaced by the empty string. -/
def render_template_content (template_content : List Char) (customer : RenderFields) : List Char :=
  let c1 := pyReplace template_content (chars "\x7b客户姓名\x7d") (customer.name.getD [])
  let c2 := pyReplace c1 (chars "\x7b行业\x7d") (customer.industry.getD [])
  pyReplace c2 (chars "\x7b公司\x7d") (customer.company.getD [])

/-- The pseudorandom per-record values drawn from Faker in
`generate_fake_customers`; modelled as an oracle indexed by loop
iteration. -/
structure FakeProfile where
  name : List Char
  phone : List Char
  wechat : List Char
  qq : List Char
  company : List Char
  position : List Char
  region : List Char
deriving DecidableEq, Repr

/-- One customer dictionary produced by `generate_fake_customers`. -/
structure Draft where
  name : List Char
  phone : List Char
  wechat : List Char
  qq : List Char
  company : List Char
  position : List Char
  industry : List Char
  region : List Char
  channel : List Char
  collected_time : List Char
  add_status : List Char
  intention : List Char
  remarks : Option (List Char)
deriving DecidableEq, Repr

/-- Embedding of `utils.generate_fake_customers`; `profiles` supplies the
Faker draws and `now` the `datetime.utcnow()` of each iteration. -/
def generate_fake_customers (profiles : Nat → FakeProfile) (industry : List Char)
    (number : Nat) (now : List Char) : List Draft :=
  (List.range number).map (fun i =>
    let p := profiles i
    { name := p.name, phone := p.phone, wechat := p.wechat, qq := p.qq,
      company := p.company, position := p.position, industry := industry,
      region := p.region, channel := chars "自动生成", collected_time := now,
      add_status := chars "未添加", intention := chars "无", remarks := none })

/-- A row of the `customers` table (`database.py` schema: every column
except the id is nullable). -/
structure Customer where
  id : Nat
  name : Option (List Char)
  phone : Option (List Char)
  wechat : Option (List Char)
  qq : Option (List Char)
  company : Option (List Char)
  position : Option (List Char)
  industry : Option (List Char)
  region : Option (List Char)
  channel : Option (List Char)
  collected_time : Option (List Char)
  add_status : Option (List Char)
  group_name : Option (List Char)
  intention : Option (List Char)
  remarks : Option (List Char)
  created_at : Option (List Char)
  updated_at : Option (List Char)
deriving DecidableEq, Repr

/-- A row of the `templates` table (`name` and `content` are NOT NULL). -/
structure Template where
  id : Nat
  name : List Char
  content : List Char
  ttype : Option (List Char)
  scene : Option (List Char)
  is_active : Option Int
  created_at : Option (List Char)
  updated_at : Option (List Char)
deriving DecidableEq, Repr

/-- A row of the `message_logs` table. -/
structure MessageLog where
  id : Nat
  customer_id : Option Nat
  send_time : Option (List Char)
  send_type : Option (List Char)
  message_content : Option (List Char)
  status : Option (List Char)
  error : Option (List Char)
  created_at : Option (List Char)
deriving DecidableEq, Repr

/-- A row of the `command_logs` table. -/
structure CommandLog where
  id : Nat
  command_content : Option (List Char)
  standardized_command : Option (List Char)
  account : Option (List Char)
  time : Option (List Char)
  status : Option (List Char)
  result : Option (List Char)
  error : Option (List Char)
  duration : Option Int
  created_at : Option (List Char)
deriving DecidableEq, Repr

/-- The SQLite store: the four tables plus the AUTOINCREMENT sequence of
each (`lastrowid` sources). -/
structure Store where
  customers : List Customer
  templates : List Template
  message_logs : List MessageLog
  command_logs : List CommandLog
  next_customer_id : Nat
  next_template_id : Nat
  next_message_log_id : Nat
  next_command_log_id : Nat
deriving DecidableEq, Repr

/-- SQLite `LIKE` folds ASCII letters to one case. -/
def asciiLower (c : Char) : Char :=
  if 'A' ≤ c ∧ c ≤ 'Z' then Char.ofNat (c.toNat + 32) else c

/-- Recursion kernel of `likeMatch`; every call shrinks
`pattern.length + subject.length`, so fuel equal to that sum never runs
out. -/
def likeMatchAux : Nat → List Char → List Char → Bool
  | _, [], s => s.isEmpty
  | 0, _ :: _, _ => false
  | fuel + 1, '%' :: ps, s =>
    likeMatchAux fuel ps s ||
      (match s with
       | [] => false
       | _ :: t => likeMatchAux fuel ('%' :: ps) t)
  | fuel + 1, '_' :: ps, s =>
    (match s with
     | [] => false
     | _ :: t => likeMatchAux fuel ps t)
  | fuel + 1, p :: ps, s =>
    (match s with
     | [] => false
     | c :: t => asciiLower p == asciiLower c && likeMatchAux fuel ps t)

/-- SQLite `LIKE` pattern matching: `%` matches any run, `_` any single
character, other characters literally up to ASCII case. -/
def likeMatch (p s : List Char) : Bool := likeMatchAux (p.length + s.length) p s

/-- The SQL predicate `col LIKE '%needle%'` applied to a non-NULL value. -/
def sqlLikeContains (needle hay : List Char) : Bool :=
  likeMatch ('%' :: (needle ++ chars "%")) hay

/-- Fold step of `ORDER BY id LIMIT 1`: keep the row of least id. -/
def minByIdStep (acc : Option Template) (t : Template) : Option Template :=
  match acc with
  | none => some t
  | some u => if t.id < u.id then some t else some u

/-- `SELECT * FROM templates ... ORDER BY id LIMIT 1` over a row list. -/
def minById (ts : List Template) : Option Template := ts.foldl minByIdStep none

/-- `name LIKE '%kw%'` filter of the send-messages template lookup
(`main.py` queries the template NAME only). -/
def templateNameMatches (kw : List Char) (t : Template) : Bool :=
  sqlLikeContains kw t.name

/-- Template resolution of the send-messages branch of `process_command`:
a keyword lookup on the name when `template_keyword` is truthy, then a
fallback to the least-id template overall. -/
def resolveTemplate (ts : List Template) (kw : Option (List Char)) : Option Template :=
  let byKw :=
    match kw with
    | some k => if k ≠ [] then minById (ts.filter (templateNameMatches k)) else none
    | none => none
  match byKw with
  | some t => some t
  | none => minById ts

/-- SQL `add_status != '已添加'`: NULL compares to NULL and the row is
filtered out, so a NULL `add_status` never matches. -/
def needsAdd (c : Customer) : Bool :=
  match c.add_status with
  | some s => if s = chars "已添加" then false else true
  | none => false

/-- Row predicate of the add-friends branch: the `!=` filter, with the
`industry LIKE '%target%'` conjunct added when the parsed target is
truthy and not the literal `客户`. -/
def addFilter (target : Option (List Char)) (c : Customer) : Bool :=
  match target with
  | some t =>
    if t ≠ [] ∧ t ≠ chars "客户" then
      needsAdd c &&
        (match c.industry with
         | some ind => sqlLikeContains t ind
         | none => false)
    else needsAdd c
  | none => needsAdd c

/-- The bulk `UPDATE customers SET add_status='已添加'` on one row: only
`add_status` is written (no `updated_at` touch). -/
def setAdded (c : Customer) : Customer := { c with add_status := some (chars "已添加") }

/-- SQL `add_status = '已添加'` (NULL rows excluded). -/
def isAdded (c : Customer) : Bool :=
  if c.add_status = some (chars "已添加") then true else false

/-- The customer row INSERTed by the gather branch: note the source
inserts the branch-level `now` into `collected_time` (not the draft's
timestamp) and leaves `group_name` NULL. -/
def draftToCustomer (i : Nat) (now : List Char) (d : Draft) : Customer :=
  { id := i, name := some d.name, phone := some d.phone, wechat := some d.wechat,
    qq := some d.qq, company := some d.company, position := some d.position,
    industry := some d.industry, region := some d.region, channel := some d.channel,
    collected_time := some now, add_status := some d.add_status, group_name := none,
    intention := some d.intention, remarks := d.remarks, created_at := some now,
    updated_at := some now }

/-- The message_logs row INSERTed per customer by the send branch. -/
def mkMessageLog (i : Nat) (now : List Char) (c : Customer) (tpl : Template) : MessageLog :=
  { id := i, customer_id := some c.id, send_time := some now,
    send_type := some (chars "群发"),
    message_content := some (render_template_content tpl.content
      ⟨c.name, c.industry, c.company⟩),
    status := some (chars "发送成功"), error := none, created_at := some now }

/-- The `elif` dispatch chain of `main.process_command`, acting on an
already-classified action.  `profiles` supplies the Faker draws of the
gather branch and `now` the `utcnow().isoformat()` timestamp. -/
def dispatchAction (profiles : Nat → FakeProfile) (now : List Char) (act : Action)
    (st : Store) : List Char × Store :=
  match act with
  | Action.gather industry number =>
    let drafts := generate_fake_customers profiles industry number now
    let rows := drafts.enum.map (fun p => draftToCustomer (st.next_customer_id + p.1) now p.2)
    (chars "已生成" ++ natToChars drafts.length ++ chars "个" ++ industry ++ chars "行业客户信息。",
     { st with customers := st.customers ++ rows,
               next_customer_id := st.next_customer_id + rows.length })
  | Action.addFriends target =>
    let matched := st.customers.filter (addFilter target)
    let count := matched.length
    let customers2 :=
      if count ≠ 0 then
        st.customers.map (fun c => if addFilter target c then setAdded c else c)
      else st.customers
    (chars "已将" ++ natToChars count ++ chars "位客户标记为已添加好友。",
     { st with customers := customers2 })
  | Action.sendMessages kw =>
    match resolveTemplate st.templates kw with
    | none => (chars "尚未配置任何话术模板，无法发送消息。", st)
    | some tpl =>
      let targets := st.customers.filter isAdded
      let rows := targets.enum.map (fun p => mkMessageLog (st.next_message_log_id + p.1) now p.2 tpl)
      (chars "消息发送完成，共发送给" ++ natToChars targets.length ++ chars "位客户。",
       { st with message_logs := st.message_logs ++ rows,
                 next_message_log_id := st.next_message_log_id + rows.length })
  | Action.generateReport =>
    (chars "客户总数：" ++ natToChars st.customers.length ++
     chars "；已添加好友数：" ++ natToChars (st.customers.filter isAdded).length ++
     chars "；发送消息数：" ++ natToChars st.message_logs.length ++ chars "。", st)
  | Action.stop => (chars "操作已暂停/终止（模拟）。", st)
  | Action.pause => (chars "操作已暂停/终止（模拟）。", st)
  | Action.unknown => (chars "无法识别的指令，请重试。", st)

/-- `main.process_command`: classify the raw text, then dispatch. -/
def process_command (profiles : Nat → FakeProfile) (now : List Char)
    (command_text : List Char) (st : Store) : List Char × Store :=
  dispatchAction profiles now (parse_command command_text).action st

/-- Python `str()` of an optional string inside a dict repr. -/
def pyReprOptStr : Option (List Char) → List Char
  | none => chars "None"
  | some s => chars "\x27" ++ s ++ chars "\x27"

/-- Python `str(parse_command(command))`: the repr of the result dict in
insertion order (`action`, `raw`, then the action-specific keys); string
values are assumed to need no escaping, as for the program's inputs. -/
def pyRepr (r : ParseResult) : List Char :=
  match r.action with
  | Action.gather industry number =>
    chars "\x7b\x27action\x27: \x27gather\x27, \x27raw\x27: \x27" ++ r.raw ++
      chars "\x27, \x27industry\x27: \x27" ++ industry ++
      chars "\x27, \x27number\x27: " ++ natToChars number ++ chars "\x7d"
  | Action.addFriends target =>
    chars "\x7b\x27action\x27: \x27add_friends\x27, \x27raw\x27: \x27" ++ r.raw ++
      chars "\x27, \x27target\x27: " ++ pyReprOptStr target ++ chars "\x7d"
  | Action.sendMessages kw =>
    chars "\x7b\x27action\x27: \x27send_messages\x27, \x27raw\x27: \x27" ++ r.raw ++
      chars "\x27, \x27template_keyword\x27: " ++ pyReprOptStr kw ++
      chars ", \x27target\x27: None\x7d"
  | Action.generateReport =>
    chars "\x7b\x27action\x27: \x27generate_report\x27, \x27raw\x27: \x27" ++ r.raw ++ chars "\x27\x7d"
  | Action.stop =>
    chars "\x7b\x27action\x27: \x27stop\x27, \x27raw\x27: \x27" ++ r.raw ++ chars "\x27\x7d"
  | Action.pause =>
    chars "\x7b\x27action\x27: \x27pause\x27, \x27raw\x27: \x27" ++ r.raw ++ chars "\x27\x7d"
  | Action.unknown =>
    chars "\x7b\x27action\x27: \x27unknown\x27, \x27raw\x27: \x27" ++ r.raw ++ chars "\x27\x7d"

/-- The `UPDATE command_logs SET ... WHERE id=?` of `receive_command`. -/
def updateCommandLog (logs : List CommandLog) (cmdId : Nat) (std : List Char)
    (res err : Option (List Char)) (status : List Char) (dur : Int) : List CommandLog :=
  logs.map (fun r =>
    if r.id = cmdId then
      { r with standardized_command := some std, result := res, error := err,
               status := some status, duration := some dur }
    else r)

/-- The pending command-log row INSERTed before dispatch. -/
def pendingCommandLog (cmdId : Nat) (command now : List Char) : CommandLog :=
  { id := cmdId, command_content := some command, standardized_command := none,
    account := none, time := some now, status := some (chars "执行中"),
    result := none, error := none, duration := none, created_at := some now }

/-- The store right after the first phase of `receive_command`: the
pending log row appended, nothing else touched. -/
def pendingStore (st : Store) (command now : List Char) : Store :=
  { st with
      command_logs :=
        st.command_logs ++ [pendingCommandLog st.next_command_log_id command now],
      next_command_log_id := st.next_command_log_id + 1 }

/-- `main.receive_command`: the two-phase CommandLog write around
dispatch.  `d` is the dispatch as it executed: `Except.ok` carries the
result message and mutated store, `Except.error` the exception text
`str(e)` together with the store holding every mutation performed before
the exception (nothing is rolled back).  `duration` stands for the
measured whole seconds. -/
def receive_command (d : Store → Except (List Char × Store) (List Char × Store))
    (command now : List Char) (duration : Int) (st : Store) : Store :=
  let cmdId := st.next_command_log_id
  let st1 : Store := pendingStore st command now
  let standardized := pyRepr (parse_command command)
  match d st1 with
  | Except.ok (result, st2) =>
    { st2 with command_logs :=
        (updateCommandLog st2.command_logs cmdId standardized (some result) none
          (chars "执行成功") duration) }
  | Except.error (emsg, st2) =>
    { st2 with command_logs :=
        (updateCommandLog st2.command_logs cmdId standardized none (some emsg)
          (chars "执行失败") duration) }

/-! Concrete fixtures used by witnesses and counterexamples. -/

/-- A fixed Faker draw. -/
def sampleProfile : FakeProfile :=
  ⟨chars "张三", chars "13800000000", chars "zs01", chars "123456789",
   chars "某某公司", chars "经理", chars "广东省"⟩

/-- A constant Faker oracle. -/
def pDefault : Nat → FakeProfile := fun _ => sampleProfile

/-- A customer row with the given id, industry and add status; the other
nullable columns are NULL. -/
def mkCust (i : Nat) (industry add_status : Option (List Char)) : Customer :=
  { id := i, name := some (chars "王五"), phone := none, wechat := none, qq := none,
    company := none, position := none, industry := industry, region := none,
    channel := none, collected_time := none, add_status := add_status,
    group_name := none, intention := none, remarks := none, created_at := none,
    updated_at := none }

/-- A template row with the given id, name and content. -/
def mkTemplate (i : Nat) (name content : List Char) : Template :=
  { id := i, name := name, content := content, ttype := none, scene := none,
    is_active := some 1, created_at := none, updated_at := none }

/-- An empty store. -/
def emptyStore : Store :=
  { customers := [], templates := [], message_logs := [], command_logs := [],
    next_customer_id := 1, next_template_id := 1, next_message_log_id := 1,
    next_command_log_id := 1 }

/-- Five customers, three already added. -/
def store5 : Store :=
  { emptyStore with
      customers :=
        [mkCust 1 none (some (chars "已添加")), mkCust 2 none (some (chars "已添加")),
         mkCust 3 none (some (chars "已添加")), mkCust 4 none (some (chars "未添加")),
         mkCust 5 none (some (chars "未添加"))],
      next_customer_id := 6 }

/-- Two templates: only the second one CONTAINS the keyword 欢迎, and only
in its content, not its name; plus one added customer to observe which
template gets sent. -/
def storeKw : Store :=
  { emptyStore with
      customers := [mkCust 1 none (some (chars "已添加"))],
      templates := [mkTemplate 1 (chars "模板甲") (chars "无关内容"),
                    mkTemplate 2 (chars "乙") (chars "欢迎您好")],
      next_customer_id := 2, next_template_id := 3 }

/-! Helper lemmas. -/

theorem map_id_of_eq {α : Type} (l : List α) (f : α → α) (h : ∀ a ∈ l, f a = a) :
    l.map f = l := by
  induction l with
  | nil => rfl
  | cons a t ih =>
    simp only [List.map_cons, h a (List.mem_cons_self a t)]
    rw [ih (fun b hb => h b (List.mem_cons_of_mem a hb))]

theorem forall₂_map_self {α : Type} (R : α → α → Prop) (f : α → α) (l : List α)
    (h : ∀ a ∈ l, R a (f a)) : List.Forall₂ R l (l.map f) := by
  induction l with
  | nil => exact List.Forall₂.nil
  | cons a t ih =>
    exact List.Forall₂.cons (h a (List.mem_cons_self a t))
      (ih (fun b hb => h b (List.mem_cons_of_mem a hb)))

/-- Closed form of the add-friends branch: the result message carries the
count of rows matched by the SQL filter, and the customers list gets the
conditional bulk update (identity when the count is zero). -/
theorem addFriends_run (profiles : Nat → FakeProfile) (now : List Char)
    (target : Option (List Char)) (st : Store) :
    dispatchAction profiles now (Action.addFriends target) st =
      (chars "已将" ++ natToChars ((st.customers.filter (addFilter target)).length)
          ++ chars "位客户标记为已添加好友。",
       { st with customers :=
           st.customers.map (fun c => if addFilter target c then setAdded c else c) }) := by
  unfold dispatchAction
  by_cases h : (List.filter (addFilter target) st.customers).length = 0
  · have hnil : List.filter (addFilter target) st.customers = [] :=
      List.length_eq_zero.mp h
    have hall : ∀ c ∈ st.customers, addFilter target c = false := by
      intro c hc
      have := List.filter_eq_nil_iff.mp hnil c hc
      simpa using this
    have hmap : st.customers.map (fun c => if addFilter target c then setAdded c else c)
        = st.customers :=
      map_id_of_eq _ _ (fun c hc => by simp [hall c hc])
    simp [h, hmap]
  · simp [h]

/-- C5: dispatching AddFriends sets `add_status` to 已添加 for exactly the
customers matched by the embedded SQL filter (`add_status != '已添加'`,
plus `industry LIKE '%target%'` when the target is truthy and not 客户),
leaves every other customer unchanged, and reports exactly the matched
count; in particular on the 3-of-5 store the other 2 rows are updated and
the message states count 2. -/
theorem c5_add_friends_updates_matched (profiles : Nat → FakeProfile) (now : List Char)
    (target : Option (List Char)) (st : Store) :
    ((dispatchAction profiles now (Action.addFriends target) st).2).customers
        = st.customers.map (fun c => if addFilter target c then setAdded c else c)
      ∧ (dispatchAction profiles now (Action.addFriends target) st).1
        = chars "已将" ++ natToChars ((st.customers.filter (addFilter target)).length)
            ++ chars "位客户标记为已添加好友。"
      ∧ (dispatchAction pDefault (chars "T") (Action.addFriends none) store5).1
        = chars "已将2位客户标记为已添加好友。"
      ∧ ((dispatchAction pDefault (chars "T") (Action.addFriends none) store5).2).customers
        = [mkCust 1 none (some (chars "已添加")), mkCust 2 none (some (chars "已添加")),
           mkCust 3 none (some (chars "已添加")),
           setAdded (mkCust 4 none (some (chars "未添加"))),
           setAdded (mkCust 5 none (some (chars "未添加")))] := by
  refine ⟨?_, ?_, by decide, by decide⟩ <;> rw [addFriends_run]

/-- C10: the AddFriends dispatch is frame-preserving: templates, message
logs, command logs and the id sequences are untouched, no customer row is
inserted or deleted, and each customer row keeps every field other than
`add_status` (rows not matched by the filter are fully unchanged). -/
theorem c10_add_friends_frame (profiles : Nat → FakeProfile) (now : List Char)
    (target : Option (List Char)) (st : Store) :
    ((dispatchAction profiles now (Action.addFriends target) st).2).templates = st.templates
      ∧ ((dispatchAction profiles now (Action.addFriends target) st).2).message_logs
          = st.message_logs
      ∧ ((dispatchAction profiles now (Action.addFriends target) st).2).command_logs
          = st.command_logs
      ∧ ((dispatchAction profiles now (Action.addFriends target) st).2).next_customer_id
          = st.next_customer_id
      ∧ ((dispatchAction profiles now (Action.addFriends target) st).2).next_template_id
          = st.next_template_id
      ∧ ((dispatchAction profiles now (Action.addFriends target) st).2).next_message_log_id
          = st.next_message_log_id
      ∧ ((dispatchAction profiles now (Action.addFriends target) st).2).next_command_log_id
          = st.next_command_log_id
      ∧ ((dispatchAction profiles now (Action.addFriends target) st).2).customers.length
          = st.customers.length
      ∧ List.Forall₂ (fun c c2 =>
            c2.id = c.id ∧ c2.name = c.name ∧ c2.phone = c.phone ∧ c2.wechat = c.wechat
              ∧ c2.qq = c.qq ∧ c2.company = c.company ∧ c2.position = c.position
              ∧ c2.industry = c.industry ∧ c2.region = c.region ∧ c2.channel = c.channel
              ∧ c2.collected_time = c.collected_time ∧ c2.group_name = c.group_name
              ∧ c2.intention = c.intention ∧ c2.remarks = c.remarks
              ∧ c2.created_at = c.created_at ∧ c2.updated_at = c.updated_at
              ∧ (addFilter target c = false → c2 = c))
          st.customers ((dispatchAction profiles now (Action.addFriends target) st).2).customers := by
  rw [addFriends_run]
  refine ⟨rfl, rfl, rfl, rfl, rfl, rfl, rfl, by simp, ?_⟩
  refine forall₂_map_self _ _ _ (fun c hc => ?_)
  by_cases h : addFilter target c = true
  · simp [h, setAdded]
  · have h' : addFilter target c = false := by simpa using h
    simp [h']

theorem resolveTemplate_nil (kw : Option (List Char)) :
    resolveTemplate [] kw = none := by
  cases kw with
  | none => rfl
  | some k =>
    unfold resolveTemplate
    simp [minById, List.filter]

/-- C7: dispatching SendMessages against a store with zero templates
returns the fixed not-configured message and leaves the whole store
unchanged (in particular zero message_logs rows are inserted). -/
theorem c7_send_without_templates (profiles : Nat → FakeProfile) (now : List Char)
    (kw : Option (List Char)) (st : Store) (h : st.templates = []) :
    dispatchAction profiles now (Action.sendMessages kw) st
      = (chars "尚未配置任何话术模板，无法发送消息。", st) := by
  have hr : resolveTemplate st.templates kw = none := by
    rw [h]; exact resolveTemplate_nil kw
  simp [dispatchAction, hr]

/-- Witness for C7 at a concrete empty store. -/
theorem c7_send_without_templates_witness :
    emptyStore.templates = []
      ∧ dispatchAction pDefault (chars "T") (Action.sendMessages (some (chars "欢迎"))) emptyStore
          = (chars "尚未配置任何话术模板，无法发送消息。", emptyStore) :=
  ⟨rfl, c7_send_without_templates pDefault (chars "T") (some (chars "欢迎")) emptyStore rfl⟩

/-- C9: `generate_fake_customers` yields exactly `number` drafts, each
with the requested industry, channel 自动生成, status 未添加, intention 无,
NULL remarks, the generation timestamp, and all contact and
classification fields populated from the Faker draw; `number = 0` yields
the empty list. -/
theorem c9_generate_fake_customers_shape (profiles : Nat → FakeProfile)
    (industry : List Char) (number : Nat) (now : List Char)
    (hpop : ∀ i, (profiles i).name ≠ [] ∧ (profiles i).phone ≠ []
      ∧ (profiles i).wechat ≠ [] ∧ (profiles i).qq ≠ [] ∧ (profiles i).company ≠ []
      ∧ (profiles i).position ≠ [] ∧ (profiles i).region ≠ []) :
    (generate_fake_customers profiles industry number now).length = number
      ∧ (∀ d ∈ generate_fake_customers profiles industry number now,
          d.industry = industry ∧ d.channel = chars "自动生成"
            ∧ d.add_status = chars "未添加" ∧ d.intention = chars "无"
            ∧ d.remarks = none ∧ d.collected_time = now
            ∧ d.name ≠ [] ∧ d.phone ≠ [] ∧ d.wechat ≠ [] ∧ d.qq ≠ []
            ∧ d.company ≠ [] ∧ d.position ≠ [] ∧ d.region ≠ [])
      ∧ (number = 0 → generate_fake_customers profiles industry number now = []) := by
  refine ⟨by simp [generate_fake_customers], ?_, ?_⟩
  · intro d hd
    simp only [generate_fake_customers, List.mem_map, List.mem_range] at hd
    obtain ⟨i, _, rfl⟩ := hd
    obtain ⟨h1, h2, h3, h4, h5, h6, h7⟩ := hpop i
    exact ⟨rfl, rfl, rfl, rfl, rfl, rfl, h1, h2, h3, h4, h5, h6, h7⟩
  · intro h
    simp [generate_fake_customers, h]

/-- Witness for C9 at a concrete Faker oracle and count 5. -/
theorem c9_generate_fake_customers_shape_witness :
    (generate_fake_customers pDefault (chars "教育") 5 (chars "T0")).length = 5 :=
  (c9_generate_fake_customers_shape pDefault (chars "教育") 5 (chars "T0")
    (fun _ =>
      (by decide :
        sampleProfile.name ≠ [] ∧ sampleProfile.phone ≠ [] ∧ sampleProfile.wechat ≠ []
          ∧ sampleProfile.qq ≠ [] ∧ sampleProfile.company ≠ []
          ∧ sampleProfile.position ≠ [] ∧ sampleProfile.region ≠ []))).1

/-- C2 counterexample: a customer name equal to the literal token \x7b公司\x7d
IS substituted further — the 公司 pass runs after the 客户姓名 pass and
replaces the injected token with the company value, so the token does not
appear literally in the output as the claim states. -/
theorem c2_injected_token_counterexample :
    render_template_content (chars "你好\x7b客户姓名\x7d")
        ⟨some (chars "\x7b公司\x7d"), none, some (chars "ABC")⟩
      = chars "你好ABC"
      ∧ chars "你好ABC" ≠ chars "你好\x7b公司\x7d" := by
  exact ⟨by decide, by decide⟩

/-- C2 amended: substitution is one literal pass per token in the fixed
order 客户姓名, 行业, 公司, each applied once globally; a field value
containing the token being substituted or an earlier token of that order
appears literally in the output, while a value containing a later token
is replaced by that later pass. -/
theorem c2_single_pass_order :
    render_template_content (chars "你好\x7b客户姓名\x7d")
        ⟨some (chars "\x7b公司\x7d"), none, some (chars "ABC")⟩
      = chars "你好ABC"
      ∧ render_template_content (chars "来自\x7b公司\x7d")
          ⟨some (chars "张三"), none, some (chars "\x7b客户姓名\x7d")⟩
        = chars "来自\x7b客户姓名\x7d"
      ∧ render_template_content (chars "\x7b行业\x7d")
          ⟨none, some (chars "\x7b行业\x7d"), none⟩
        = chars "\x7b行业\x7d"
      ∧ render_template_content (chars "\x7b客户姓名\x7d与\x7b行业\x7d")
          ⟨some (chars "\x7b行业\x7d"), some (chars "教育"), none⟩
        = chars "教育与教育" := by
  refine ⟨by decide, by decide, by decide, by decide⟩

/-- C8: the three fixed tokens are each replaced everywhere by the
corresponding field (name, industry, company), an absent or NULL field
becomes the empty string, and tokens outside the fixed set stay
untouched; includes both spec examples. -/
theorem c8_render_fixed_tokens :
    render_template_content (chars "你好\x7b客户姓名\x7d，来自\x7b公司\x7d")
        ⟨some (chars "张三"), none, some (chars "ABC")⟩
      = chars "你好张三，来自ABC"
      ∧ render_template_content (chars "你好\x7b客户姓名\x7d，来自\x7b公司\x7d")
          ⟨some (chars "张三"), none, none⟩
        = chars "你好张三，来自"
      ∧ render_template_content (chars "\x7b公司\x7d和\x7b公司\x7d")
          ⟨none, none, some (chars "AB")⟩
        = chars "AB和AB"
      ∧ render_template_content (chars "你好\x7b未知\x7d\x7b客户\x7d")
          ⟨some (chars "张三"), some (chars "教育"), some (chars "ABC")⟩
        = chars "你好\x7b未知\x7d\x7b客户\x7d"
      ∧ render_template_content (chars "\x7b客户姓名\x7d\x7b行业\x7d\x7b公司\x7d")
          ⟨none, none, none⟩
        = chars "" := by
  refine ⟨by decide, by decide, by decide, by decide, by decide⟩

theorem minById_go (l : List Template) :
    ∀ (a t : Template), l.foldl minByIdStep (some a) = some t →
      (t = a ∨ t ∈ l) ∧ t.id ≤ a.id ∧ ∀ u ∈ l, t.id ≤ u.id := by
  induction l with
  | nil =>
    intro a t h
    simp only [List.foldl_nil, Option.some.injEq] at h
    subst h
    simp
  | cons b bs ih =>
    intro a t h
    simp only [List.foldl_cons] at h
    by_cases hb : b.id < a.id
    · have h' : bs.foldl minByIdStep (some b) = some t := by
        simpa [minByIdStep, hb] using h
      obtain ⟨hmem, hle, hall⟩ := ih b t h'
      refine ⟨?_, ?_, ?_⟩
      · rcases hmem with rfl | hmem
        · exact Or.inr (List.mem_cons_self _ _)
        · exact Or.inr (List.mem_cons_of_mem _ hmem)
      · omega
      · intro u hu
        rcases List.mem_cons.mp hu with rfl | hu
        · exact hle
        · exact hall u hu
    · have h' : bs.foldl minByIdStep (some a) = some t := by
        simpa [minByIdStep, hb] using h
      obtain ⟨hmem, hle, hall⟩ := ih a t h'
      refine ⟨?_, hle, ?_⟩
      · rcases hmem with rfl | hmem
        · exact Or.inl rfl
        · exact Or.inr (List.mem_cons_of_mem b hmem)
      · intro u hu
        rcases List.mem_cons.mp hu with rfl | hu
        · omega
        · exact hall u hu

theorem minById_spec (l : List Template) (t : Template) (h : minById l = some t) :
    t ∈ l ∧ ∀ u ∈ l, t.id ≤ u.id := by
  cases l with
  | nil => simp [minById] at h
  | cons b bs =>
    have h' : bs.foldl minByIdStep (some b) = some t := by
      simpa [minById, List.foldl_cons, minByIdStep] using h
    obtain ⟨hmem, hle, hall⟩ := minById_go bs b t h'
    refine ⟨?_, ?_⟩
    · rcases hmem with rfl | hmem
      · exact List.mem_cons_self _ _
      · exact List.mem_cons_of_mem _ hmem
    · intro u hu
      rcases List.mem_cons.mp hu with rfl | hu
      · exact hle
      · exact hall u hu

theorem foldl_minByIdStep_ne_none (l : List Template) :
    ∀ a : Template, l.foldl minByIdStep (some a) ≠ none := by
  induction l with
  | nil => intro a; simp
  | cons b bs ih =>
    intro a
    simp only [List.foldl_cons, minByIdStep]
    by_cases hb : b.id < a.id
    · simpa [hb] using ih b
    · simpa [hb] using ih a

theorem minById_eq_none (l : List Template) (h : minById l = none) : l = [] := by
  cases l with
  | nil => rfl
  | cons b bs =>
    exfalso
    exact foldl_minByIdStep_ne_none bs b (by simpa [minById, minByIdStep] using h)

/-- C3 counterexample: with a keyword of 欢迎, a template whose CONTENT
contains the keyword (id 2) but whose name does not, and a lower-id
template (id 1) matching neither by name nor content, the send branch
uses the id-1 fallback template — contradicting the claim that a
content-or-name match is preferred. -/
theorem c3_content_match_counterexample :
    containsSub (chars "欢迎") (mkTemplate 2 (chars "乙") (chars "欢迎您好")).content = true
      ∧ storeKw.templates
        = [mkTemplate 1 (chars "模板甲") (chars "无关内容"),
           mkTemplate 2 (chars "乙") (chars "欢迎您好")]
      ∧ ((dispatchAction pDefault (chars "T")
            (Action.sendMessages (some (chars "欢迎"))) storeKw).2).message_logs.map
          (fun m => m.message_content)
        = [some (chars "无关内容")]
      ∧ some (chars "无关内容") ≠ some (chars "欢迎您好") := by
  refine ⟨by decide, by decide, by decide, by decide⟩

/-- C3 amended: the keyword lookup matches the template NAME only
(`WHERE name LIKE '%kw%'`), with the lowest id among name-matching
templates; when the keyword is falsy or no template name matches, the
lowest-id template overall is used. -/
theorem c3_template_resolution_by_name :
    (∀ (ts : List Template) (k : List Char) (t : Template), k ≠ [] →
        resolveTemplate ts (some k) = some t →
        t ∈ ts ∧
          ((templateNameMatches k t = true
              ∧ ∀ u ∈ ts, templateNameMatches k u = true → t.id ≤ u.id)
            ∨ ((∀ u ∈ ts, templateNameMatches k u = false) ∧ ∀ u ∈ ts, t.id ≤ u.id)))
      ∧ (∀ (ts : List Template) (t : Template),
          resolveTemplate ts none = some t → t ∈ ts ∧ ∀ u ∈ ts, t.id ≤ u.id) := by
  constructor
  · intro ts k t hk h
    simp only [resolveTemplate] at h
    rw [if_pos hk] at h
    cases hby : minById (List.filter (templateNameMatches k) ts) with
    | some v =>
      rw [hby] at h
      injection h with h
      subst h
      obtain ⟨hmem, hall⟩ := minById_spec _ _ hby
      have hmem' := List.mem_filter.mp hmem
      refine ⟨hmem'.1, Or.inl ⟨hmem'.2, ?_⟩⟩
      intro u hu hmatch
      exact hall u (List.mem_filter.mpr ⟨hu, hmatch⟩)
    | none =>
      rw [hby] at h
      have hnil := minById_eq_none _ hby
      have hnone : ∀ u ∈ ts, templateNameMatches k u = false := by
        intro u hu
        have := List.filter_eq_nil_iff.mp hnil u hu
        simpa using this
      obtain ⟨hmem, hall⟩ := minById_spec ts t h
      exact ⟨hmem, Or.inr ⟨hnone, hall⟩⟩
  · intro ts t h
    exact minById_spec ts t h

/-- Witness for C3's amended theorem: a two-template store where only the
second template's name contains the keyword. -/
theorem c3_template_resolution_by_name_witness :
    mkTemplate 2 (chars "欢迎语") (chars "正文")
        ∈ [mkTemplate 1 (chars "甲") (chars "正文"), mkTemplate 2 (chars "欢迎语") (chars "正文")]
      ∧ ((templateNameMatches (chars "欢迎") (mkTemplate 2 (chars "欢迎语") (chars "正文")) = true
            ∧ ∀ u ∈ [mkTemplate 1 (chars "甲") (chars "正文"),
                mkTemplate 2 (chars "欢迎语") (chars "正文")],
              templateNameMatches (chars "欢迎") u = true
                → (mkTemplate 2 (chars "欢迎语") (chars "正文")).id ≤ u.id)
          ∨ ((∀ u ∈ [mkTemplate 1 (chars "甲") (chars "正文"),
                mkTemplate 2 (chars "欢迎语") (chars "正文")],
              templateNameMatches (chars "欢迎") u = false)
            ∧ ∀ u ∈ [mkTemplate 1 (chars "甲") (chars "正文"),
                mkTemplate 2 (chars "欢迎语") (chars "正文")],
              (mkTemplate 2 (chars "欢迎语") (chars "正文")).id ≤ u.id)) :=
  c3_template_resolution_by_name.1
    [mkTemplate 1 (chars "甲") (chars "正文"), mkTemplate 2 (chars "欢迎语") (chars "正文")]
    (chars "欢迎") (mkTemplate 2 (chars "欢迎语") (chars "正文")) (by decide) (by decide)

theorem updateCommandLog_append (logs : List CommandLog) (row : CommandLog)
    (cmdId : Nat) (std : List Char) (res err : Option (List Char)) (status : List Char)
    (dur : Int) (h : ∀ r ∈ logs, r.id ≠ cmdId) (hrow : row.id = cmdId) :
    updateCommandLog (logs ++ [row]) cmdId std res err status dur
      = logs ++ [{ row with
                   standardized_command := some std, result := res, error := err,
                   status := some status, duration := some dur }] := by
  unfold updateCommandLog
  rw [List.map_append]
  congr 1
  · exact map_id_of_eq _ _ (fun r hr => by simp [h r hr])
  · simp [hrow]

/-- C6: every submitted command first gets a CommandLog row with status
执行中 and that row is then updated exactly once: a dispatch exception is
caught at the boundary, its text recorded in `error` with status 执行失败
and no retry, while every mutation the dispatch performed before raising
is kept (the final store carries the partial store's tables); an
unrecognized command is not an error — it is classified Unknown, returns
the fixed not-recognized message and finishes with success status. -/
theorem c6_two_phase_command_log (d : Store → Except (List Char × Store) (List Char × Store))
    (profiles : Nat → FakeProfile) (command now : List Char) (dur : Int) (st : Store)
    (hid : ∀ r ∈ st.command_logs, r.id ≠ st.next_command_log_id) :
    (pendingStore st command now).command_logs
        = st.command_logs ++ [pendingCommandLog st.next_command_log_id command now]
      ∧ (pendingCommandLog st.next_command_log_id command now).status
          = some (chars "执行中")
      ∧ (∀ emsg st2, d (pendingStore st command now) = Except.error (emsg, st2) →
          st2.command_logs = (pendingStore st command now).command_logs →
          receive_command d command now dur st =
            { st2 with command_logs := st.command_logs ++
                [{ pendingCommandLog st.next_command_log_id command now with
                     standardized_command := some (pyRepr (parse_command command)),
                     result := none, error := some emsg,
                     status := some (chars "执行失败"), duration := some dur }] })
      ∧ ((parse_command command).action = Action.unknown →
          receive_command (fun s => Except.ok (process_command profiles now command s))
              command now dur st =
            { pendingStore st command now with command_logs := st.command_logs ++
                [{ pendingCommandLog st.next_command_log_id command now with
                     standardized_command := some (pyRepr (parse_command command)),
                     result := some (chars "无法识别的指令，请重试。"), error := none,
                     status := some (chars "执行成功"), duration := some dur }] }) := by
  refine ⟨rfl, rfl, ?_, ?_⟩
  · intro emsg st2 herr hlogs
    simp only [receive_command]
    rw [herr]
    dsimp only
    have : st2.command_logs
        = st.command_logs ++ [pendingCommandLog st.next_command_log_id command now] := hlogs
    rw [this, updateCommandLog_append _ _ _ _ _ _ _ _ hid rfl]
  · intro hunk
    unfold receive_command process_command
    rw [hunk]
    show { pendingStore st command now with command_logs :=
        (updateCommandLog (pendingStore st command now).command_logs
          st.next_command_log_id (pyRepr (parse_command command))
          (some (chars "无法识别的指令，请重试。")) none (chars "执行成功") dur) } = _
    have : (pendingStore st command now).command_logs
        = st.command_logs ++ [pendingCommandLog st.next_command_log_id command now] := rfl
    rw [this, updateCommandLog_append _ _ _ _ _ _ _ _ hid rfl]

theorem startsWith_append (pat t : List Char) : startsWith pat (pat ++ t) = true := by
  induction pat with
  | nil => rfl
  | cons p ps ih => simp [startsWith, ih]

theorem containsSub_of_startsWith (pat l : List Char) (h : startsWith pat l = true) :
    containsSub pat l = true := by
  cases l with
  | nil => exact h
  | cons c cs => simp [containsSub, h]

theorem containsSub_cons (pat : List Char) (c : Char) (l : List Char)
    (h : containsSub pat l = true) : containsSub pat (c :: l) = true := by
  simp [containsSub, h]

theorem containsSub_drop (pat l : List Char) (i : Nat)
    (h : containsSub pat (l.drop i) = true) : containsSub pat l = true := by
  induction l generalizing i with
  | nil => simpa using h
  | cons c cs ih =>
    cases i with
    | zero => exact h
    | succ i =>
      rw [List.drop_succ_cons] at h
      exact containsSub_cons pat c cs (ih i h)

theorem takeWhile_all_append (p : Char → Bool) (ds : List Char) (x : Char) (t : List Char)
    (hall : ds.all p = true) (hx : p x = false) :
    (ds ++ x :: t).takeWhile p = ds := by
  induction ds with
  | nil => simp [List.takeWhile_cons_of_neg, hx]
  | cons d dl ih =>
    simp only [List.all_cons, Bool.and_eq_true] at hall
    simp [List.takeWhile_cons_of_pos hall.1, ih hall.2]

theorem matchKehu_eq_some (ds post : List Char) (hne : ds ≠ [])
    (hdig : ds.all Char.isDigit = true) :
    matchKehu (chars "客户信息" ++ (ds ++ '条' :: post)) = some (digitsToNat ds) := by
  have hdrop : (chars "客户信息" ++ (ds ++ '条' :: post)).drop 4 = ds ++ '条' :: post :=
    List.drop_left' (by rfl)
  have htake : (ds ++ '条' :: post).takeWhile Char.isDigit = ds :=
    takeWhile_all_append Char.isDigit ds '条' post hdig (by decide)
  have hdrop2 : (ds ++ '条' :: post).drop ds.length = '条' :: post := List.drop_left ds _
  simp only [matchKehu, hdrop, htake, hdrop2]
  rw [if_pos (startsWith_append (chars "客户信息") (ds ++ '条' :: post))]
  rw [if_pos ⟨hne, startsWith_append (chars "条") post⟩]

theorem matchKehu_some_startsWith (l : List Char) (n : Nat) (h : matchKehu l = some n) :
    startsWith (chars "客户信息") l = true := by
  by_contra hc
  simp only [matchKehu] at h
  rw [if_neg hc] at h
  exact Option.noConfusion h

theorem matchTail_cons_ne (c : Char) (l : List Char) (h : ¬ c = '行') :
    matchTail (c :: l) = none := by
  simp only [matchTail]
  rw [if_neg h]

theorem matchTail_some_contains (l : List Char) (n : Nat) (h : matchTail l = some n) :
    containsSub (chars "客户信息") l = true := by
  cases l with
  | nil => exact Option.noConfusion h
  | cons c rest =>
    by_cases hc : c = '行'
    case neg =>
      rw [matchTail_cons_ne c rest hc] at h
      exact Option.noConfusion h
    case pos =>
      subst hc
      simp only [matchTail] at h
      rw [if_pos trivial] at h
      cases rest with
      | nil => exact Option.noConfusion h
      | cons c2 rest2 =>
        dsimp only at h
        by_cases h2 : c2 = '业'
        · subst h2
          rw [if_pos rfl] at h
          cases hk : matchKehu rest2 with
          | some m =>
            exact containsSub_cons _ _ _ (containsSub_cons _ _ _
              (containsSub_of_startsWith _ _ (matchKehu_some_startsWith _ _ hk)))
          | none =>
            rw [hk] at h
            exact containsSub_cons _ _ _
              (containsSub_of_startsWith _ _ (matchKehu_some_startsWith _ _ h))
        · rw [if_neg h2] at h
          exact containsSub_cons _ _ _
            (containsSub_of_startsWith _ _ (matchKehu_some_startsWith _ _ h))

theorem matchTail_drop_post (post : List Char)
    (hpost : containsSub (chars "客户信息") post = false) (i : Nat) :
    matchTail (post.drop i) = none := by
  cases h : matchTail (post.drop i) with
  | none => rfl
  | some n =>
    exfalso
    have hcontains := containsSub_drop _ post i (matchTail_some_contains _ _ h)
    rw [hpost] at hcontains
    exact Bool.noConfusion hcontains

theorem drop_append_le {α : Type} (l1 l2 : List α) (i : Nat) (h : i ≤ l1.length) :
    (l1 ++ l2).drop i = l1.drop i ++ l2 := by
  induction l1 generalizing i with
  | nil =>
    have : i = 0 := by simpa using h
    simp [this]
  | cons a t ih =>
    cases i with
    | zero => simp
    | succ i =>
      simp only [List.cons_append, List.drop_succ_cons]
      exact ih i (by simpa using h)

theorem drop_append_ge {α : Type} (l1 l2 : List α) (i : Nat) (h : l1.length ≤ i) :
    (l1 ++ l2).drop i = l2.drop (i - l1.length) := by
  have key : (l1 ++ l2).drop (l1.length + (i - l1.length)) = l2.drop (i - l1.length) := by
    rw [List.drop_add, List.drop_left]
  have : l1.length + (i - l1.length) = i := by omega
  rw [this] at key
  exact key

theorem isDigit_ne_hang (d : Char) (h : d.isDigit = true) : ¬ d = '行' := by
  intro he
  rw [he] at h
  exact absurd h (by decide)

theorem matchTail_digits_tail (ds post : List Char) (hdig : ds.all Char.isDigit = true)
    (hpost : containsSub (chars "客户信息") post = false) (i : Nat) :
    matchTail ((ds ++ '条' :: post).drop i) = none := by
  by_cases hi : i ≤ ds.length
  · rw [drop_append_le ds _ i hi]
    cases hd : ds.drop i with
    | nil => exact matchTail_cons_ne '条' post (by decide)
    | cons d r =>
      have hmem : d ∈ ds := List.drop_subset i ds (hd ▸ List.mem_cons_self d r)
      have hdd : d.isDigit = true := (List.all_eq_true.mp hdig) d hmem
      exact matchTail_cons_ne d _ (isDigit_ne_hang d hdd)
  · rw [drop_append_ge ds _ i (by omega)]
    have h1 : 1 ≤ i - ds.length := by omega
    rw [show i - ds.length = (i - ds.length - 1) + 1 from by omega, List.drop_succ_cons]
    exact matchTail_drop_post post hpost _

theorem matchTail_suffix_yeye (ds post : List Char) (hdig : ds.all Char.isDigit = true)
    (hpost : containsSub (chars "客户信息") post = false) (i : Nat) :
    matchTail (('业' :: '客' :: '户' :: '信' :: '息' :: (ds ++ '条' :: post)).drop i) = none := by
  rcases i with _ | _ | _ | _ | _ | i
  · exact matchTail_cons_ne _ _ (by decide)
  · exact matchTail_cons_ne _ _ (by decide)
  · exact matchTail_cons_ne _ _ (by decide)
  · exact matchTail_cons_ne _ _ (by decide)
  · exact matchTail_cons_ne _ _ (by decide)
  · show matchTail ((ds ++ '条' :: post).drop i) = none
    exact matchTail_digits_tail ds post hdig hpost i

theorem matchTail_suffix_ye (ds post : List Char) (hdig : ds.all Char.isDigit = true)
    (hpost : containsSub (chars "客户信息") post = false) (i : Nat) :
    matchTail (('客' :: '户' :: '信' :: '息' :: (ds ++ '条' :: post)).drop i) = none := by
  rcases i with _ | _ | _ | _ | i
  · exact matchTail_cons_ne _ _ (by decide)
  · exact matchTail_cons_ne _ _ (by decide)
  · exact matchTail_cons_ne _ _ (by decide)
  · exact matchTail_cons_ne _ _ (by decide)
  · show matchTail ((ds ++ '条' :: post).drop i) = none
    exact matchTail_digits_tail ds post hdig hpost i

theorem matchTail_yeye (ds post : List Char) (hne : ds ≠ [])
    (hdig : ds.all Char.isDigit = true) :
    matchTail ('行' :: '业' :: '客' :: '户' :: '信' :: '息' :: (ds ++ '条' :: post))
      = some (digitsToNat ds) := by
  have hk : matchKehu ('客' :: '户' :: '信' :: '息' :: (ds ++ '条' :: post))
      = some (digitsToNat ds) := matchKehu_eq_some ds post hne hdig
  simp only [matchTail]
  rw [if_pos trivial]
  rw [if_pos trivial]
  rw [hk]

theorem matchTail_ye (ds post : List Char) (hne : ds ≠ [])
    (hdig : ds.all Char.isDigit = true) :
    matchTail ('行' :: '客' :: '户' :: '信' :: '息' :: (ds ++ '条' :: post))
      = some (digitsToNat ds) := by
  have hk : matchKehu ('客' :: '户' :: '信' :: '息' :: (ds ++ '条' :: post))
      = some (digitsToNat ds) := matchKehu_eq_some ds post hne hdig
  simp only [matchTail]
  rw [if_pos trivial]
  rw [if_neg (by decide : ¬ ('客' : Char) = '业')]
  rw [hk]

theorem length_takeWhile_append_ge (p : Char → Bool) (l1 l2 : List Char)
    (h : l1.all p = true) : l1.length ≤ ((l1 ++ l2).takeWhile p).length := by
  induction l1 with
  | nil => simp
  | cons a t ih =>
    simp only [List.all_cons, Bool.and_eq_true] at h
    simp only [List.cons_append, List.takeWhile_cons_of_pos h.1, List.length_cons]
    have := ih h.2
    omega

theorem gatherSplit_exact (l : List Char) (t n : Nat) (k : Nat)
    (ht1 : 1 ≤ t) (htk : t ≤ k)
    (hsucc : matchTail (l.drop t) = some n)
    (hfail : ∀ j, t < j → matchTail (l.drop j) = none) :
    gatherSplit l k = some (l.take t, n) := by
  induction k with
  | zero => omega
  | succ k ih =>
    by_cases hk : k + 1 = t
    · simp only [gatherSplit]
      rw [hk, hsucc]
    · simp only [gatherSplit]
      rw [hfail (k + 1) (by omega)]
      exact ih (by omega)

theorem gatherAfter_exact (industry rest2 : List Char) (n : Nat)
    (hind_ne : industry ≠ []) (hind_all : industry.all isGatherChar = true)
    (hsucc : matchTail rest2 = some n)
    (hfail : ∀ j, 1 ≤ j → matchTail (rest2.drop j) = none) :
    gatherAfter (industry ++ rest2) = some (industry, n) := by
  unfold gatherAfter
  have hpos : 0 < industry.length := List.length_pos.mpr hind_ne
  have h := gatherSplit_exact (industry ++ rest2) industry.length n
    ((industry ++ rest2).takeWhile isGatherChar).length
    (by omega)
    (length_takeWhile_append_ge isGatherChar industry rest2 hind_all)
    (by rw [List.drop_left]; exact hsucc)
    (by
      intro j hj
      rw [drop_append_ge industry rest2 j (by omega)]
      exact hfail (j - industry.length) (by omega))
  rw [List.take_left] at h
  exact h

theorem findGather_cons (c : Char) (cs : List Char) :
    findGather (c :: cs) =
      if c = '搜' ∧ startsWith (chars "集") cs = true then
        (match gatherAfter (cs.drop 1) with
         | some r => some r
         | none => findGather cs)
      else findGather cs := rfl

theorem findGather_here (rest : List Char) (r : List Char × Nat)
    (h : gatherAfter rest = some r) :
    findGather ('搜' :: '集' :: rest) = some r := by
  rw [findGather_cons]
  rw [if_pos ⟨rfl, startsWith_append (chars "集") rest⟩]
  have h' : gatherAfter (('集' :: rest).drop 1) = some r := h
  rw [h']

theorem findGather_skip (pre rest : List Char)
    (hpre : containsSub (chars "搜集") pre = false) :
    findGather (pre ++ '搜' :: '集' :: rest) = findGather ('搜' :: '集' :: rest) := by
  induction pre with
  | nil => rfl
  | cons c cs ih =>
    have hsplit : startsWith (chars "搜集") (c :: cs) = false
        ∧ containsSub (chars "搜集") cs = false := by
      have h2 := hpre
      simp only [containsSub, Bool.or_eq_false_iff] at h2
      exact h2
    rw [List.cons_append, findGather_cons]
    by_cases hc : c = '搜' ∧ startsWith (chars "集") (cs ++ '搜' :: '集' :: rest) = true
    · exfalso
      obtain ⟨hc1, hc2⟩ := hc
      cases cs with
      | nil => exact Bool.noConfusion hc2
      | cons c2 cs2 =>
        have h3 : ('集' == c2) = true := by simpa [startsWith] using hc2
        have hc2' : c2 = '集' := (beq_iff_eq.mp h3).symm
        have hsw : startsWith (chars "搜集") (c :: c2 :: cs2) = true := by
          subst hc1
          subst hc2'
          simp [startsWith]
        rw [hsw] at hsplit
        exact Bool.noConfusion hsplit.1
    · rw [if_neg hc]
      exact ih hsplit.2

/-- Common core of the gather-precedence theorems: if the stripped text
is `pre ++ 搜集 ++ industry ++ rest2` with no 搜集 in `pre`, the industry
a nonempty word-character run, the regex tail matching exactly at the
industry boundary and at no later capture boundary, then the gather rule
fires with that capture. -/
theorem parse_gather_of (text pre industry rest2 : List Char) (n : Nat)
    (hstrip : pyStrip text = pre ++ ('搜' :: '集' :: (industry ++ rest2)))
    (hpre : containsSub (chars "搜集") pre = false)
    (hind_ne : industry ≠ []) (hind_all : industry.all isGatherChar = true)
    (hsucc : matchTail rest2 = some n)
    (hfail : ∀ j, 1 ≤ j → matchTail (rest2.drop j) = none) :
    (parse_command text).action = Action.gather industry n := by
  have hfind : findGather (pyStrip text) = some (industry, n) := by
    rw [hstrip, findGather_skip _ _ hpre]
    exact findGather_here _ _
      (gatherAfter_exact industry rest2 n hind_ne hind_all hsucc hfail)
  simp only [parse_command]
  rw [hfind]

/-- C1: any text whose stripped form embeds a well-formed
搜集(industry)行业客户信息(digits)条 token — with no earlier 搜集 and no
客户信息 recurring after the token, so that the capture is the stated one —
is classified as Gather with that industry and number, no matter what
other keywords (群发, 添加..客户, 报告, 停止, ...) appear around it: the
gather rule is tried first and the first match wins. -/
theorem c1_gather_precedence (text pre industry ds post : List Char)
    (hstrip : pyStrip text
      = pre ++ (chars "搜集" ++ (industry ++ (chars "行业客户信息" ++ (ds ++ '条' :: post)))))
    (hpre : containsSub (chars "搜集") pre = false)
    (hind_ne : industry ≠ []) (hind_all : industry.all isGatherChar = true)
    (hds_ne : ds ≠ []) (hds_dig : ds.all Char.isDigit = true)
    (hpost : containsSub (chars "客户信息") post = false) :
    (parse_command text).action = Action.gather industry (digitsToNat ds) := by
  exact parse_gather_of text pre industry
    ('行' :: '业' :: '客' :: '户' :: '信' :: '息' :: (ds ++ '条' :: post)) (digitsToNat ds)
    hstrip hpre hind_ne hind_all
    (matchTail_yeye ds post hds_ne hds_dig)
    (fun j hj => by
      rw [show j = (j - 1) + 1 from by omega, List.drop_succ_cons]
      exact matchTail_suffix_yeye ds post hds_dig hpost (j - 1))

/-- Witness for C1: the gather token together with 群发, 报告, 停止 and
添加..客户 all present in the same command. -/
theorem c1_gather_precedence_witness :
    containsSub (chars "群发") (chars "搜集餐饮行业客户信息30条然后群发报告停止添加客户") = true
      ∧ containsSub (chars "报告") (chars "搜集餐饮行业客户信息30条然后群发报告停止添加客户") = true
      ∧ containsSub (chars "停止") (chars "搜集餐饮行业客户信息30条然后群发报告停止添加客户") = true
      ∧ (parse_command (chars "搜集餐饮行业客户信息30条然后群发报告停止添加客户")).action
          = Action.gather (chars "餐饮") 30 :=
  ⟨by decide, by decide, by decide,
   c1_gather_precedence (chars "搜集餐饮行业客户信息30条然后群发报告停止添加客户") []
     (chars "餐饮") (chars "30") (chars "然后群发报告停止添加客户")
     (by decide) (by decide) (by decide) (by decide) (by decide) (by decide) (by decide)⟩

/-- C4 counterexample: with 行业 fully omitted
(搜集餐饮客户信息30条), the gather regex does NOT match — the literal 行
is required (only 业 is optional, the pattern is 行业?) — and no later
rule matches either, so the text is classified Unknown, not Gather. -/
theorem c4_hang_required_counterexample :
    (parse_command (chars "搜集餐饮客户信息30条")).action = Action.unknown
      ∧ Action.unknown ≠ Action.gather (chars "餐饮") 30 :=
  ⟨by decide, by decide⟩

/-- C4 amended: in the gather pattern only the literal 业 is optional;
the literal 行 is required.  Every well-embedded text of the shape
搜集(industry)行客户信息(digits)条 (with 业 omitted after the required 行)
is still classified as Gather with that industry and number. -/
theorem c4_ye_optional_hang_required (text pre industry ds post : List Char)
    (hstrip : pyStrip text
      = pre ++ (chars "搜集" ++ (industry ++ (chars "行客户信息" ++ (ds ++ '条' :: post)))))
    (hpre : containsSub (chars "搜集") pre = false)
    (hind_ne : industry ≠ []) (hind_all : industry.all isGatherChar = true)
    (hds_ne : ds ≠ []) (hds_dig : ds.all Char.isDigit = true)
    (hpost : containsSub (chars "客户信息") post = false) :
    (parse_command text).action = Action.gather industry (digitsToNat ds) := by
  exact parse_gather_of text pre industry
    ('行' :: '客' :: '户' :: '信' :: '息' :: (ds ++ '条' :: post)) (digitsToNat ds)
    hstrip hpre hind_ne hind_all
    (matchTail_ye ds post hds_ne hds_dig)
    (fun j hj => by
      rw [show j = (j - 1) + 1 from by omega, List.drop_succ_cons]
      exact matchTail_suffix_ye ds post hds_dig hpost (j - 1))

/-- Witness for C4's amended theorem: 业 omitted, 行 present. -/
theorem c4_ye_optional_hang_required_witness :
    (parse_command (chars "搜集餐饮行客户信息30条")).action
      = Action.gather (chars "餐饮") 30 :=
  c4_ye_optional_hang_required (chars "搜集餐饮行客户信息30条") []
    (chars "餐饮") (chars "30") []
    (by decide) (by decide) (by decide) (by decide) (by decide) (by decide) (by decide)

/-- Witness for C6: a dispatch that raises on an empty store. -/
theorem c6_two_phase_command_log_witness :
    receive_command (fun s => Except.error (chars "db locked", s))
        (chars "群发") (chars "T1") 0 emptyStore
      = { pendingStore emptyStore (chars "群发") (chars "T1") with
            command_logs := emptyStore.command_logs ++
              [{ pendingCommandLog emptyStore.next_command_log_id (chars "群发") (chars "T1") with
                   standardized_command := some (pyRepr (parse_command (chars "群发"))),
                   result := none, error := some (chars "db locked"),
                   status := some (chars "执行失败"), duration := some 0 }] } :=
  (c6_two_phase_command_log (fun s => Except.error (chars "db locked", s)) pDefault
      (chars "群发") (chars "T1") 0 emptyStore (by intro r hr; simp [emptyStore] at hr)).2.2.1
    (chars "db locked") (pendingStore emptyStore (chars "群发") (chars "T1")) rfl rfl

end KeFu
